import Mathlib

/-!
Verification of the credential-derived key-management subsystem of the
Royal Wallet browser application, shallowly embedded from
`src/lib/passkey.ts`, `src/lib/encryption.ts`, `src/lib/wallet.ts` and
`src/components/WalletSetup.tsx`.

Representation choices:

* Byte strings (`ArrayBuffer`/`Uint8Array`) are `List Nat` with each
  element `< 256`.  JavaScript strings are represented by the list of
  their code units; for the base64/base58/JSON material handled here
  these coincide with their byte values.
* The WebCrypto platform primitives are not code of this repository.
  They are abstracted as the fields of a `SubtleCrypto` parameter:
  `sha256` models `crypto.subtle.digest('SHA-256', _)`; AES-GCM
  (`encrypt`/`decrypt`/`wrapKey`/`unwrapKey`) is modelled byte-exactly
  in counter-mode-with-tag shape: the ciphertext of `pt` under key `k`
  and 96-bit `iv` is `ct ++ tag` where `ct` XORs `pt` against the
  keystream `ks k iv i` and `tag = mac k iv ct` is the 16-byte (128-bit)
  GCM authentication tag; decryption recomputes the tag and fails closed
  (returns `none`, the model of a rejected promise) on mismatch, exactly
  as `crypto.subtle.decrypt`/`unwrapKey` reject on tag mismatch.
* `crypto.getRandomValues` draws are modelled as explicit `iv`
  parameters: the embedding of each encrypting function receives the
  bytes the CSPRNG returned for that call.
* `btoa`/`atob` (reached through the repository helpers
  `arrayBufferToBase64`/`base64ToArrayBuffer`) are modelled concretely
  by `encB64`/`decB64` below; `decB64` returns `none` exactly where
  `atob` throws on the canonical padded strings produced by `encB64`.
-/

abbrev Bytes := List Nat

/-- Every element of the list is a byte value. -/
abbrev ValidBytes (l : Bytes) : Prop := ∀ b ∈ l, b < 256

/-- Abstraction of the WebCrypto primitives used by the repository:
a 256-bit hash and an AES-GCM keystream/authentication-tag pair.
`ks k iv i` is the `i`-th keystream byte under key `k` and iv `iv`;
`mac k iv ct` is the 16-byte (128-bit) authentication tag over the
ciphertext `ct`. -/
structure SubtleCrypto where
  sha256 : Bytes → Bytes
  ks : Bytes → Bytes → Nat → Nat
  mac : Bytes → Bytes → Bytes → Bytes
  ks_lt : ∀ k iv i, ks k iv i < 256
  mac_len : ∀ k iv ct, (mac k iv ct).length = 16
  mac_lt : ∀ k iv ct, ValidBytes (mac k iv ct)

/-! ### Base64 (`btoa` / `atob`) -/

/-- Code of the base64 digit for a sextet (the `btoa` alphabet). -/
def b64c (n : Nat) : Nat :=
  if n < 26 then 65 + n
  else if n < 52 then 71 + n
  else if n < 62 then n - 4
  else if n = 62 then 43
  else 47

/-- Sextet of a base64 digit code; `none` for characters outside the
alphabet (where `atob` throws). -/
def b64d (c : Nat) : Option Nat :=
  if 65 ≤ c ∧ c ≤ 90 then some (c - 65)
  else if 97 ≤ c ∧ c ≤ 122 then some (c - 71)
  else if 48 ≤ c ∧ c ≤ 57 then some (c + 4)
  else if c = 43 then some 62
  else if c = 47 then some 63
  else none

/-- Base64 encoding of a byte list, with `=` (code 61) padding:
the model of `btoa` on a binary string. -/
def encB64 : Bytes → Bytes
  | [] => []
  | [a] => [b64c (a / 4), b64c (a % 4 * 16), 61, 61]
  | [a, b] => [b64c (a / 4), b64c (a % 4 * 16 + b / 16), b64c (b % 16 * 4), 61]
  | a :: b :: c :: rest =>
      b64c (a / 4) :: b64c (a % 4 * 16 + b / 16) :: b64c (b % 16 * 4 + c / 64) ::
        b64c (c % 64) :: encB64 rest

/-- Base64 decoding: the model of `atob`, `none` where `atob` throws. -/
def decB64 : Bytes → Option Bytes
  | [] => some []
  | [_] => none
  | [_, _] => none
  | [_, _, _] => none
  | c1 :: c2 :: c3 :: c4 :: rest =>
      if c3 = 61 then
        if c4 = 61 ∧ rest = [] then
          (b64d c1).bind fun s1 => (b64d c2).bind fun s2 =>
            some [s1 * 4 + s2 / 16]
        else none
      else if c4 = 61 then
        if rest = [] then
          (b64d c1).bind fun s1 => (b64d c2).bind fun s2 => (b64d c3).bind fun s3 =>
            some [s1 * 4 + s2 / 16, s2 % 16 * 16 + s3 / 4]
        else none
      else
        (b64d c1).bind fun s1 => (b64d c2).bind fun s2 => (b64d c3).bind fun s3 =>
          (b64d c4).bind fun s4 => (decB64 rest).bind fun tl =>
            some ((s1 * 4 + s2 / 16) :: (s2 % 16 * 16 + s3 / 4) :: (s3 % 4 * 64 + s4) :: tl)

theorem b64d_b64c : ∀ n < 64, b64d (b64c n) = some n := by decide

theorem b64c_ne_pad (n : Nat) : b64c n ≠ 61 := by
  unfold b64c
  repeat' split
  all_goals omega

/-- Decoding inverts encoding on byte lists. -/
theorem decB64_encB64 : ∀ bs : Bytes, ValidBytes bs → decB64 (encB64 bs) = some bs
  | [], _ => by simp [encB64, decB64]
  | [a], h => by
      have ha : a < 256 := h a (by simp)
      simp only [encB64]
      simp [decB64, b64d_b64c (a / 4) (by omega), b64d_b64c (a % 4 * 16) (by omega)]
      omega
  | [a, b], h => by
      have ha : a < 256 := h a (by simp)
      have hb : b < 256 := h b (by simp)
      simp only [encB64]
      simp [decB64, b64c_ne_pad,
        b64d_b64c (a / 4) (by omega), b64d_b64c (a % 4 * 16 + b / 16) (by omega),
        b64d_b64c (b % 16 * 4) (by omega)]
      omega
  | [a, b, c], h => by
      have ha : a < 256 := h a (by simp)
      have hb : b < 256 := h b (by simp)
      have hc : c < 256 := h c (by simp)
      simp only [encB64]
      simp [decB64, b64c_ne_pad,
        b64d_b64c (a / 4) (by omega), b64d_b64c (a % 4 * 16 + b / 16) (by omega),
        b64d_b64c (b % 16 * 4 + c / 64) (by omega), b64d_b64c (c % 64) (by omega)]
      omega
  | a :: b :: c :: d :: rest, h => by
      have ha : a < 256 := h a (by simp)
      have hb : b < 256 := h b (by simp)
      have hc : c < 256 := h c (by simp)
      have hrest : ValidBytes (d :: rest) := by
        intro x hx
        exact h x (by simp [hx])
      have ih := decB64_encB64 (d :: rest) hrest
      simp only [encB64]
      simp [decB64, b64c_ne_pad,
        b64d_b64c (a / 4) (by omega), b64d_b64c (a % 4 * 16 + b / 16) (by omega),
        b64d_b64c (b % 16 * 4 + c / 64) (by omega), b64d_b64c (c % 64) (by omega), ih]
      omega

/-! ### AES-GCM model -/

/-- XOR a byte list against the keystream, starting at position `i`:
the counter-mode half of AES-GCM. -/
def xorKs (C : SubtleCrypto) (key iv : Bytes) : Nat → Bytes → Bytes
  | _, [] => []
  | i, b :: bs => (b ^^^ C.ks key iv i) :: xorKs C key iv (i + 1) bs

/-- GCM ciphertext (without tag) of `pt` under `key` and `iv`. -/
def gcmCt (C : SubtleCrypto) (key iv pt : Bytes) : Bytes := xorKs C key iv 0 pt

/-- GCM authentication tag accompanying `gcmCt`. -/
def gcmTag (C : SubtleCrypto) (key iv pt : Bytes) : Bytes :=
  C.mac key iv (gcmCt C key iv pt)

/-- `crypto.subtle.encrypt({name:'AES-GCM', iv}, key, pt)` (also
`wrapKey`, which encrypts the raw key bytes): ciphertext followed by the
128-bit tag. -/
def aesGcmEnc (C : SubtleCrypto) (key iv pt : Bytes) : Bytes :=
  gcmCt C key iv pt ++ gcmTag C key iv pt

/-- `crypto.subtle.decrypt` / `unwrapKey`: recompute the tag over the
ciphertext part and fail closed (`none`, a rejected promise) unless it
matches the transmitted tag. -/
def aesGcmDec (C : SubtleCrypto) (key iv data : Bytes) : Option Bytes :=
  if data.length < 16 then none
  else
    let ct := data.take (data.length - 16)
    let tag := data.drop (data.length - 16)
    if C.mac key iv ct = tag then some (xorKs C key iv 0 ct) else none

theorem xorKs_length (C : SubtleCrypto) (key iv : Bytes) :
    ∀ (i : Nat) (bs : Bytes), (xorKs C key iv i bs).length = bs.length
  | _, [] => rfl
  | i, _ :: bs => by simp [xorKs, xorKs_length C key iv (i + 1) bs]

theorem xorKs_valid (C : SubtleCrypto) (key iv : Bytes) :
    ∀ (i : Nat) (bs : Bytes), ValidBytes bs → ValidBytes (xorKs C key iv i bs)
  | _, [], _ => by intro b hb; simp [xorKs] at hb
  | i, b :: bs, h => by
      intro x hx
      simp only [xorKs, List.mem_cons] at hx
      rcases hx with hx | hx
      · have hb : b < 256 := h b (by simp)
        have hk : C.ks key iv i < 256 := C.ks_lt key iv i
        have : (256 : Nat) = 2 ^ 8 := by norm_num
        subst hx
        calc b ^^^ C.ks key iv i < 2 ^ 8 :=
              Nat.xor_lt_two_pow (by omega) (by omega)
          _ = 256 := by norm_num
      · exact xorKs_valid C key iv (i + 1) bs (fun y hy => h y (by simp [hy])) x hx

theorem xorKs_xorKs (C : SubtleCrypto) (key iv : Bytes) :
    ∀ (i : Nat) (bs : Bytes), xorKs C key iv i (xorKs C key iv i bs) = bs
  | _, [] => rfl
  | i, b :: bs => by
      simp [xorKs, xorKs_xorKs C key iv (i + 1) bs, Nat.xor_assoc]

theorem validBytes_append {l1 l2 : Bytes} (h1 : ValidBytes l1) (h2 : ValidBytes l2) :
    ValidBytes (l1 ++ l2) := by
  intro b hb
  rcases List.mem_append.1 hb with hb | hb
  · exact h1 b hb
  · exact h2 b hb

theorem aesGcmEnc_valid (C : SubtleCrypto) (key iv pt : Bytes) (h : ValidBytes pt) :
    ValidBytes (aesGcmEnc C key iv pt) :=
  validBytes_append (xorKs_valid C key iv 0 pt h) (C.mac_lt key iv _)

theorem aesGcmEnc_length (C : SubtleCrypto) (key iv pt : Bytes) :
    (aesGcmEnc C key iv pt).length = pt.length + 16 := by
  simp [aesGcmEnc, gcmCt, gcmTag, xorKs_length, C.mac_len]

/-- Decrypting an AES-GCM encryption with a (possibly different) key
`key'` reaches the tag check: it succeeds exactly when the tag recomputed
under `key'` matches the one produced under `key`. -/
theorem aesGcmDec_aesGcmEnc (C : SubtleCrypto) (key key' iv pt : Bytes) :
    aesGcmDec C key' iv (aesGcmEnc C key iv pt) =
      if C.mac key' iv (gcmCt C key iv pt) = gcmTag C key iv pt
      then some (xorKs C key' iv 0 (gcmCt C key iv pt)) else none := by
  have hct : (gcmCt C key iv pt).length = pt.length := xorKs_length C key iv 0 pt
  have htag : (gcmTag C key iv pt).length = 16 := C.mac_len key iv _
  have hlen : (aesGcmEnc C key iv pt).length = pt.length + 16 :=
    aesGcmEnc_length C key iv pt
  unfold aesGcmDec
  rw [if_neg (by omega)]
  have hsub : (aesGcmEnc C key iv pt).length - 16 = (gcmCt C key iv pt).length := by
    omega
  rw [hsub]
  unfold aesGcmEnc
  rw [List.take_left, List.drop_left]

/-- Same-key round trip for the AES-GCM model. -/
theorem aesGcmDec_aesGcmEnc_same (C : SubtleCrypto) (key iv pt : Bytes) :
    aesGcmDec C key iv (aesGcmEnc C key iv pt) = some pt := by
  rw [aesGcmDec_aesGcmEnc]
  simp [gcmTag, gcmCt, xorKs_xorKs]

/-! ### `src/lib/passkey.ts` -/

/-- `deriveKeyFromCredential(credentialId, salt)`: SHA-256 of
`credentialId || salt`, imported as an AES-GCM key.  The key material is
the digest itself; no validation of either input is performed. -/
def deriveKeyFromCredential (C : SubtleCrypto) (credentialId salt : Bytes) : Bytes :=
  C.sha256 (credentialId ++ salt)

/-- `arrayBufferToBase64(buffer)`: bytes to binary string to `btoa`. -/
def arrayBufferToBase64 (buffer : Bytes) : Bytes := encB64 buffer

/-- `base64ToArrayBuffer(base64)`: `atob` then char codes; `none` models
the exception `atob` throws on invalid input. -/
def base64ToArrayBuffer (base64 : Bytes) : Option Bytes := decB64 base64

/-- `encryptWalletKey(walletKey, credentialId, salt)`: wrap the raw
wallet-key bytes under the credential-derived key with a 12-byte iv (the
`crypto.getRandomValues` draw, passed here as `iv`), emit
`base64(iv || ciphertext+tag)`. -/
def encryptWalletKey (C : SubtleCrypto) (walletKey credentialId salt iv : Bytes) : Bytes :=
  arrayBufferToBase64
    (iv ++ aesGcmEnc C (deriveKeyFromCredential C credentialId salt) iv walletKey)

/-- `decryptWalletKey(encryptedWalletKey, credentialId, salt)`: decode
the base64 blob, split at byte 12 into iv and wrapped key, unwrap under
the credential-derived key.  `none` models the rejected promise (from
`atob` or from the AES-GCM integrity check). -/
def decryptWalletKey (C : SubtleCrypto) (encryptedWalletKey credentialId salt : Bytes) :
    Option Bytes :=
  match base64ToArrayBuffer encryptedWalletKey with
  | none => none
  | some combined =>
      aesGcmDec C (deriveKeyFromCredential C credentialId salt)
        (combined.take 12) (combined.drop 12)

/-- `encryptWithWalletKey(data, walletKey)`: AES-GCM encrypt the encoded
data under the wallet key with a fresh 12-byte iv, emit
`base64(iv || ciphertext+tag)`.  `data` is the `TextEncoder` encoding of
the secret string. -/
def encryptWithWalletKey (C : SubtleCrypto) (data walletKey iv : Bytes) : Bytes :=
  arrayBufferToBase64 (iv ++ aesGcmEnc C walletKey iv data)

/-- `decryptWithWalletKey(encryptedData, walletKey)`: decode, split at
byte 12, AES-GCM decrypt under the wallet key. -/
def decryptWithWalletKey (C : SubtleCrypto) (encryptedData walletKey : Bytes) :
    Option Bytes :=
  match base64ToArrayBuffer encryptedData with
  | none => none
  | some combined => aesGcmDec C walletKey (combined.take 12) (combined.drop 12)

/-- Decoding the output of either encrypting function recovers
`iv || ciphertext+tag` exactly. -/
theorem decode_encode_blob (C : SubtleCrypto) (key iv pt : Bytes)
    (hivv : ValidBytes iv) (hpt : ValidBytes pt) :
    decB64 (encB64 (iv ++ aesGcmEnc C key iv pt)) = some (iv ++ aesGcmEnc C key iv pt) :=
  decB64_encB64 _ (validBytes_append hivv (aesGcmEnc_valid C key iv pt hpt))

theorem take_append_of_length {l1 l2 : Bytes} {n : Nat} (h : l1.length = n) :
    (l1 ++ l2).take n = l1 := by
  subst h
  exact List.take_left l1 l2

theorem drop_append_of_length {l1 l2 : Bytes} {n : Nat} (h : l1.length = n) :
    (l1 ++ l2).drop n = l2 := by
  subst h
  exact List.drop_left l1 l2

/-- Unwrapping a wrapped wallet key with the key derived from a possibly
different credential reduces to the AES-GCM tag check: the stored tag was
produced under `Derive(cA, salt)`, the recomputed one under
`Derive(cB, salt)`. -/
theorem decryptWalletKey_encryptWalletKey (C : SubtleCrypto)
    (walletKey cA cB salt iv : Bytes) (hiv : iv.length = 12)
    (hivv : ValidBytes iv) (hwk : ValidBytes walletKey) :
    decryptWalletKey C (encryptWalletKey C walletKey cA salt iv) cB salt =
      (if C.mac (deriveKeyFromCredential C cB salt) iv
            (gcmCt C (deriveKeyFromCredential C cA salt) iv walletKey)
          = gcmTag C (deriveKeyFromCredential C cA salt) iv walletKey
       then some (xorKs C (deriveKeyFromCredential C cB salt) iv 0
            (gcmCt C (deriveKeyFromCredential C cA salt) iv walletKey))
       else none) := by
  unfold decryptWalletKey encryptWalletKey arrayBufferToBase64 base64ToArrayBuffer
  rw [decode_encode_blob C _ iv walletKey hivv hwk]
  dsimp only
  rw [take_append_of_length hiv, drop_append_of_length hiv]
  exact aesGcmDec_aesGcmEnc C _ _ iv walletKey

/-! ### A concrete instantiation of the platform primitives

Used by the witnesses to evaluate the theorems on explicit inputs. -/

def modelCrypto : SubtleCrypto where
  sha256 m := (m.map (fun b => b % 256) ++ List.replicate 32 1).take 32
  ks k iv i := (k.headD 0 + iv.headD 0 + i) % 256
  mac k iv ct := ((k ++ iv ++ ct).map (fun b => b % 256) ++ List.replicate 16 7).take 16
  ks_lt := by
    intro k iv i
    exact Nat.mod_lt _ (by norm_num)
  mac_len := by
    intro k iv ct
    simp
    omega
  mac_lt := by
    intro k iv ct b hb
    have hb2 := List.take_subset _ _ hb
    rcases List.mem_append.1 hb2 with h | h
    · rcases List.mem_map.1 h with ⟨x, hx, rfl⟩
      exact Nat.mod_lt _ (by norm_num)
    · have := List.eq_of_mem_replicate h
      omega

def salt0 : Bytes := List.replicate 32 0
def iv0 : Bytes := List.replicate 12 1
def wk0 : Bytes := List.replicate 32 3
def cid0 : Bytes := [1, 2]

/-! ### Claims about the envelope and the secret codec -/

/-- Claim C1: for every credentialId, every 32-byte salt and every
wallet key, `decryptWalletKey (encryptWalletKey walletKey credentialId
salt) credentialId salt` returns a key with the same key material as the
original wallet key (for any iv the CSPRNG drew at wrap time). -/
theorem c1_envelope_roundtrip (C : SubtleCrypto) (credentialId salt walletKey iv : Bytes)
    (hsalt : salt.length = 32) (hwklen : walletKey.length = 32)
    (hwk : ValidBytes walletKey) (hiv : iv.length = 12) (hivv : ValidBytes iv) :
    decryptWalletKey C (encryptWalletKey C walletKey credentialId salt iv)
      credentialId salt = some walletKey := by
  rw [decryptWalletKey_encryptWalletKey C walletKey credentialId credentialId salt iv
    hiv hivv hwk]
  simp [gcmTag, gcmCt, xorKs_xorKs]

theorem c1_envelope_roundtrip_inst :
    decryptWalletKey modelCrypto (encryptWalletKey modelCrypto wk0 cid0 salt0 iv0)
      cid0 salt0 = some wk0 :=
  c1_envelope_roundtrip modelCrypto cid0 salt0 wk0 iv0 (by decide) (by decide)
    (by decide) (by decide) (by decide)

/-- Claim C5: for every wallet key and every secret (as its encoded
bytes), `decryptWithWalletKey (encryptWithWalletKey s k) k` returns
exactly `s`, for any iv the CSPRNG drew at encryption time. -/
theorem c5_secret_roundtrip (C : SubtleCrypto) (data walletKey iv : Bytes)
    (hiv : iv.length = 12) (hivv : ValidBytes iv) (hdata : ValidBytes data) :
    decryptWithWalletKey C (encryptWithWalletKey C data walletKey iv) walletKey
      = some data := by
  unfold decryptWithWalletKey encryptWithWalletKey arrayBufferToBase64 base64ToArrayBuffer
  rw [decode_encode_blob C walletKey iv data hivv hdata]
  dsimp only
  rw [take_append_of_length hiv, drop_append_of_length hiv]
  exact aesGcmDec_aesGcmEnc_same C walletKey iv data

theorem c5_secret_roundtrip_inst :
    decryptWithWalletKey modelCrypto
      (encryptWithWalletKey modelCrypto [72, 105] wk0 iv0) wk0 = some [72, 105] :=
  c5_secret_roundtrip modelCrypto [72, 105] wk0 iv0 (by decide) (by decide) (by decide)

/-- Claim C6: the wrapping-key derivation is deterministic — two calls
with identical `(credentialId, salt)` inputs yield bit-identical key
material, namely the SHA-256 digest of `credentialId || salt`; the
function is pure, retaining no state between invocations. -/
theorem c6_derive_deterministic (C : SubtleCrypto)
    (credentialId salt credentialId' salt' : Bytes)
    (h1 : credentialId' = credentialId) (h2 : salt' = salt) :
    deriveKeyFromCredential C credentialId salt
        = deriveKeyFromCredential C credentialId' salt'
      ∧ deriveKeyFromCredential C credentialId salt
        = C.sha256 (credentialId ++ salt) := by
  subst h1
  subst h2
  exact ⟨rfl, rfl⟩

theorem c6_derive_deterministic_inst :
    deriveKeyFromCredential modelCrypto cid0 salt0
        = deriveKeyFromCredential modelCrypto cid0 salt0
      ∧ deriveKeyFromCredential modelCrypto cid0 salt0
        = modelCrypto.sha256 (cid0 ++ salt0) :=
  c6_derive_deterministic modelCrypto cid0 salt0 cid0 salt0 rfl rfl

/-- Claim C4 (code-bug evidence): `deriveKeyFromCredential` performs no
validation at all.  On a zero-length credentialId it does not fail
closed: it succeeds and returns `SHA-256(salt)` — key material computed
from the public salt alone.  (Likewise no entropy check is made on the
salt.) -/
theorem c4_derive_accepts_empty_credential (C : SubtleCrypto) (salt : Bytes) :
    deriveKeyFromCredential C [] salt = C.sha256 salt := by
  simp [deriveKeyFromCredential]

/-- Claim C7: a record wrapped under `Derive(cA, salt)` cannot be
unwrapped with `Derive(cB, salt)` for a different credential `cB`: the
AES-GCM integrity check fails and no wallet key is returned.  The
hypothesis `hmac` is the AEAD integrity guarantee instantiated at this
point: the tag recomputed under the key derived from `cB` does not match
the stored tag produced under the key derived from `cA`. -/
theorem c7_wrong_credential_fails (C : SubtleCrypto) (cA cB salt walletKey iv : Bytes)
    (hne : cB ≠ cA) (hiv : iv.length = 12) (hivv : ValidBytes iv)
    (hwk : ValidBytes walletKey)
    (hmac : C.mac (deriveKeyFromCredential C cB salt) iv
        (gcmCt C (deriveKeyFromCredential C cA salt) iv walletKey)
      ≠ gcmTag C (deriveKeyFromCredential C cA salt) iv walletKey) :
    decryptWalletKey C (encryptWalletKey C walletKey cA salt iv) cB salt = none := by
  rw [decryptWalletKey_encryptWalletKey C walletKey cA cB salt iv hiv hivv hwk]
  exact if_neg hmac

theorem c7_wrong_credential_fails_inst :
    decryptWalletKey modelCrypto (encryptWalletKey modelCrypto [7, 8] [1] salt0 iv0)
      [2] salt0 = none :=
  c7_wrong_credential_fails modelCrypto [1] [2] salt0 [7, 8] iv0 (by decide)
    (by decide) (by decide) (by decide) (by decide)

/-- Claim C9: the output of both encrypting operations is the base64
encoding of `iv || ciphertext+tag`: decoding it yields exactly the
12-byte iv that the CSPRNG returned for that call (independent of the
content being encrypted, which the statement quantifies over) followed
by the AEAD ciphertext whose length is the plaintext length plus the
16-byte (128-bit) authentication tag. -/
theorem c9_output_format (C : SubtleCrypto)
    (walletKey credentialId salt data key iv : Bytes)
    (hiv : iv.length = 12) (hivv : ValidBytes iv)
    (hwk : ValidBytes walletKey) (hdata : ValidBytes data) :
    decB64 (encryptWalletKey C walletKey credentialId salt iv)
        = some (iv ++ aesGcmEnc C (deriveKeyFromCredential C credentialId salt) iv walletKey)
      ∧ (iv ++ aesGcmEnc C (deriveKeyFromCredential C credentialId salt) iv walletKey).take 12
        = iv
      ∧ (aesGcmEnc C (deriveKeyFromCredential C credentialId salt) iv walletKey).length
        = walletKey.length + 16
      ∧ (gcmTag C (deriveKeyFromCredential C credentialId salt) iv walletKey).length = 16
      ∧ decB64 (encryptWithWalletKey C data key iv) = some (iv ++ aesGcmEnc C key iv data)
      ∧ (aesGcmEnc C key iv data).length = data.length + 16 :=
  ⟨decode_encode_blob C _ iv walletKey hivv hwk,
   take_append_of_length hiv,
   aesGcmEnc_length C _ iv walletKey,
   C.mac_len _ iv _,
   decode_encode_blob C key iv data hivv hdata,
   aesGcmEnc_length C key iv data⟩

theorem c9_output_format_inst :
    decB64 (encryptWalletKey modelCrypto wk0 cid0 salt0 iv0)
        = some (iv0 ++ aesGcmEnc modelCrypto (deriveKeyFromCredential modelCrypto cid0 salt0) iv0 wk0)
      ∧ (iv0 ++ aesGcmEnc modelCrypto (deriveKeyFromCredential modelCrypto cid0 salt0) iv0 wk0).take 12
        = iv0
      ∧ (aesGcmEnc modelCrypto (deriveKeyFromCredential modelCrypto cid0 salt0) iv0 wk0).length
        = wk0.length + 16
      ∧ (gcmTag modelCrypto (deriveKeyFromCredential modelCrypto cid0 salt0) iv0 wk0).length = 16
      ∧ decB64 (encryptWithWalletKey modelCrypto [72, 105] wk0 iv0)
        = some (iv0 ++ aesGcmEnc modelCrypto wk0 iv0 [72, 105])
      ∧ (aesGcmEnc modelCrypto wk0 iv0 [72, 105]).length = [72, 105].length + 16 :=
  c9_output_format modelCrypto wk0 cid0 salt0 [72, 105] wk0 iv0 (by decide) (by decide)
    (by decide) (by decide)

/-! ### Wallet record store (`localStorage` slice used by passkey.ts)
and the flows of `WalletSetup.tsx`, `encryption.ts`, `wallet.ts` -/

/-- Code units of a Lean string literal, for spelling out the JSON
punctuation that `JSON.stringify` emits. -/
def strBytes (s : String) : Bytes := s.toList.map Char.toNat

/-- `StoredPasskeyWallet` (passkey.ts): the only durable passkey
artifact.  String fields carry their code units; `encryptedSeedPhrase`
is optional exactly as in the interface. -/
structure StoredPasskeyWallet where
  credentialId : Bytes
  publicKey : Bytes
  encryptedWalletKey : Bytes
  encryptedSecretKey : Bytes
  encryptedSeedPhrase : Option Bytes
  salt : Bytes
  createdAt : Nat
deriving DecidableEq

/-- `JSON.stringify(wallet)` for a `StoredPasskeyWallet` object built in
property-insertion order; an `undefined` seed phrase is omitted, as
`JSON.stringify` omits undefined properties. -/
def serializeStoredPasskeyWallet (w : StoredPasskeyWallet) : Bytes :=
  [123] ++ strBytes ("\"credentialId\":\"") ++ w.credentialId
    ++ strBytes ("\",\"publicKey\":\"") ++ w.publicKey
    ++ strBytes ("\",\"encryptedWalletKey\":\"") ++ w.encryptedWalletKey
    ++ strBytes ("\",\"encryptedSecretKey\":\"") ++ w.encryptedSecretKey
    ++ (match w.encryptedSeedPhrase with
        | none => []
        | some sp => strBytes ("\",\"encryptedSeedPhrase\":\"") ++ sp)
    ++ strBytes ("\",\"salt\":\"") ++ w.salt
    ++ strBytes ("\",\"createdAt\":") ++ strBytes (toString w.createdAt) ++ [125]

/-- The browser storage touched by these flows: the
`royal_passkey_wallet` localStorage entry and the `royal_wallet_data`
cookie.  `none` is an absent entry. -/
structure BrowserStore where
  passkeyWallet : Option Bytes
  walletCookie : Option Bytes
deriving DecidableEq

/-- `savePasskeyWallet(wallet)`:
`localStorage.setItem(PASSKEY_WALLET_KEY, JSON.stringify(wallet))`. -/
def savePasskeyWallet (w : StoredPasskeyWallet) (st : BrowserStore) : BrowserStore :=
  { st with passkeyWallet := some (serializeStoredPasskeyWallet w) }

/-- `deletePasskeyWallet()`: remove the localStorage entry. -/
def deletePasskeyWallet (st : BrowserStore) : BrowserStore :=
  { st with passkeyWallet := none }

/-- `hasPasskeyWallet()`: `!!localStorage.getItem(PASSKEY_WALLET_KEY)` —
true exactly when the entry is present and not the empty (falsy)
string. -/
def hasPasskeyWallet (st : BrowserStore) : Bool :=
  match st.passkeyWallet with
  | none => false
  | some data => !data.isEmpty

/-- The JavaScript values `JSON.parse` can produce where the code
expects a wallet record; the unchecked cast in `loadPasskeyWallet` means
non-record values flow through unvalidated. -/
inductive JsValue where
  | record (w : StoredPasskeyWallet)
  | num (n : Int)
  | str (s : Bytes)
  | boolean (b : Bool)
  | nullVal
deriving DecidableEq

def isWalletRecord : JsValue → Bool
  | .record _ => true
  | _ => false

/-- `loadPasskeyWallet()`: return `null` when the entry is absent or
falsy; otherwise `JSON.parse(data)` (the parameter `jp` models the
platform parser), with the parse exception caught and turned into
`null`.  The parsed value is returned as-is — no shape validation. -/
def loadPasskeyWallet (jp : Bytes → Option JsValue) (st : BrowserStore) : Option JsValue :=
  match st.passkeyWallet with
  | none => none
  | some data => if data.isEmpty then none else jp data

/-- The `credential` member of a `createPasskeyWallet` result: the
base64url string id and the raw id bytes. -/
structure PasskeyCredentialModel where
  id : Bytes
  rawId : Bytes
deriving DecidableEq

/-- The `keypair` member: these flows use the Solana keypair only
through `publicKey.toBase58()` and `bs58.encode(secretKey)`, so the
model carries those renderings. -/
structure KeypairModel where
  publicKeyB58 : Bytes
  secretKeyB58 : Bytes
deriving DecidableEq

/-- A successful `createPasskeyWallet()` result (the ceremony succeeded
and a fresh wallet key and salt were generated). -/
structure CreatePasskeyWalletResult where
  credential : PasskeyCredentialModel
  keypair : KeypairModel
  walletKey : Bytes
  salt : Bytes
deriving DecidableEq

/-- `WalletData` (wallet.ts). -/
structure WalletData where
  publicKey : Bytes
  encryptedSeedPhrase : Bytes
  secretKey : Bytes
  createdAt : Nat
  passkeyEnabled : Bool
  passkeyCredentialId : Option Bytes
deriving DecidableEq

/-- The `StoredPasskeyWallet` object assembled by `handlePasskeyCreate`
on success: wallet key wrapped under the credential-derived key (iv draw
`iv1`), base58 secret key encrypted under the wallet key (iv draw
`iv2`). -/
def passkeyRecord (C : SubtleCrypto) (r : CreatePasskeyWalletResult)
    (iv1 iv2 : Bytes) (now : Nat) : StoredPasskeyWallet :=
  { credentialId := r.credential.id
    publicKey := r.keypair.publicKeyB58
    encryptedWalletKey := encryptWalletKey C r.walletKey r.credential.rawId r.salt iv1
    encryptedSecretKey := encryptWithWalletKey C r.keypair.secretKeyB58 r.walletKey iv2
    encryptedSeedPhrase := none
    salt := arrayBufferToBase64 r.salt
    createdAt := now }

/-- `handlePasskeyCreate` (WalletSetup.tsx) as a store transition.
`result` is what `createPasskeyWallet()` returned (`none` = the ceremony
was cancelled, failed or returned null, which the handler turns into a
thrown-and-caught error).  On failure nothing is written and no wallet
data is surfaced; on success the assembled record is saved and the
in-memory `WalletData` is handed to `onWalletCreated`. -/
def handlePasskeyCreate (C : SubtleCrypto) (result : Option CreatePasskeyWalletResult)
    (iv1 iv2 : Bytes) (now : Nat) (st : BrowserStore) :
    BrowserStore × Option WalletData :=
  match result with
  | none => (st, none)
  | some r =>
      (savePasskeyWallet (passkeyRecord C r iv1 iv2 now) st,
       some { publicKey := r.keypair.publicKeyB58
              encryptedSeedPhrase := []
              secretKey := r.keypair.secretKeyB58
              createdAt := now
              passkeyEnabled := true
              passkeyCredentialId := some r.credential.id })

/-- `encrypt(data)` (encryption.ts): AES-GCM under the session key from
`getOrCreateKey()` (passed as `sessionKey`), fresh 12-byte iv, output
`btoa(iv || ciphertext+tag)`. -/
def Encryption.encrypt (C : SubtleCrypto) (sessionKey iv data : Bytes) : Bytes :=
  encB64 (iv ++ aesGcmEnc C sessionKey iv data)

/-- `decrypt(encryptedString)` (encryption.ts). -/
def Encryption.decrypt (C : SubtleCrypto) (sessionKey encryptedString : Bytes) :
    Option Bytes :=
  match decB64 encryptedString with
  | none => none
  | some combined => aesGcmDec C sessionKey (combined.take 12) (combined.drop 12)

/-- `saveEncryptedData(key, data)` (encryption.ts): encrypt the JSON
rendering of the object under the session key and store it in the
(durable, 30-day) cookie. -/
def Encryption.saveEncryptedData (C : SubtleCrypto) (sessionKey iv json : Bytes)
    (st : BrowserStore) : BrowserStore :=
  { st with walletCookie := some (Encryption.encrypt C sessionKey iv json) }

theorem Encryption.decrypt_encrypt (C : SubtleCrypto) (sessionKey iv data : Bytes)
    (hiv : iv.length = 12) (hivv : ValidBytes iv) (hdata : ValidBytes data) :
    Encryption.decrypt C sessionKey (Encryption.encrypt C sessionKey iv data)
      = some data := by
  unfold Encryption.decrypt Encryption.encrypt
  rw [decode_encode_blob C sessionKey iv data hivv hdata]
  dsimp only
  rw [take_append_of_length hiv, drop_append_of_length hiv]
  exact aesGcmDec_aesGcmEnc_same C sessionKey iv data

/-- `JSON.stringify(walletData)` for the object literal built by
`createWallet` (wallet.ts), in property order: the base58 public key,
the base58 secret key in cleartext, the (mis-named) `encryptedSeedPhrase`
field holding the normalized seed phrase in cleartext, `createdAt`, and
`passkeyEnabled: false`. -/
def Wallet.walletDataJson (pk sk seed : Bytes) (now : Nat) : Bytes :=
  [123] ++ strBytes ("\"publicKey\":\"") ++ pk
    ++ strBytes ("\",\"secretKey\":\"") ++ sk
    ++ strBytes ("\",\"encryptedSeedPhrase\":\"") ++ seed
    ++ strBytes ("\",\"createdAt\":") ++ strBytes (toString now)
    ++ strBytes (",\"passkeyEnabled\":false") ++ [125]

/-- `createWallet(seedPhrase)` (wallet.ts): derive the keypair (the
platform-crypto BIP44 derivation is abstracted: `pk`/`sk` are the base58
renderings of the derived keypair, `seed` the normalized seed phrase),
then persist the `WalletData` object through `saveEncryptedData` — i.e.
encrypted only under the session key.  No wallet key exists in this
path. -/
def Wallet.createWallet (C : SubtleCrypto) (sessionKey ivS pk sk seed : Bytes)
    (now : Nat) (st : BrowserStore) : BrowserStore × WalletData :=
  (Encryption.saveEncryptedData C sessionKey ivS (Wallet.walletDataJson pk sk seed now) st,
   { publicKey := pk
     encryptedSeedPhrase := seed
     secretKey := sk
     createdAt := now
     passkeyEnabled := false
     passkeyCredentialId := none })

/-- `startsWithSeq pat l`: `pat` is an initial segment of `l`. -/
def startsWithSeq : Bytes → Bytes → Bool
  | [], _ => true
  | _ :: _, [] => false
  | a :: as, b :: bs => a == b && startsWithSeq as bs

/-- `containsSeq pat l`: `pat` occurs contiguously inside `l`. -/
def containsSeq (pat : Bytes) : Bytes → Bool
  | [] => startsWithSeq pat []
  | b :: rest => startsWithSeq pat (b :: rest) || containsSeq pat rest

/-! ### Claims about the store-facing flows -/

/-- Claim C2: when the authentication ceremony during wallet creation is
cancelled or fails (`createPasskeyWallet` returned null), no Stored
Wallet Record is written — the browser store is exactly the state before
the attempt — and `hasPasskeyWallet()` returns false afterward, for
every initial state with no wallet. -/
theorem c2_cancel_writes_nothing (C : SubtleCrypto) (iv1 iv2 : Bytes) (now : Nat)
    (st : BrowserStore) (h : st.passkeyWallet = none) :
    (handlePasskeyCreate C none iv1 iv2 now st).1 = st
      ∧ hasPasskeyWallet (handlePasskeyCreate C none iv1 iv2 now st).1 = false := by
  refine ⟨rfl, ?_⟩
  simp [handlePasskeyCreate, hasPasskeyWallet, h]

theorem c2_cancel_writes_nothing_inst :
    (handlePasskeyCreate modelCrypto none iv0 iv0 0 ⟨none, none⟩).1 = ⟨none, none⟩
      ∧ hasPasskeyWallet (handlePasskeyCreate modelCrypto none iv0 iv0 0 ⟨none, none⟩).1
        = false :=
  c2_cancel_writes_nothing modelCrypto iv0 iv0 0 ⟨none, none⟩ rfl

/-- Claim C3 (amended): the Wallet Secret is never persisted as raw
cleartext, but it is not always protected by the Wallet Key.  The
passkey path does protect it under the Wallet Key: the persisted
record's `encryptedSecretKey` is exactly `encryptWithWalletKey` output
under the wallet key, and `encryptedWalletKey` is the wrap of that key
under the credential-derived key.  The seed-phrase path, however,
persists the secret in the wallet cookie as ciphertext under only the
session storage key (`getOrCreateKey`), with no Wallet Key anywhere in
that path — decrypting with the session key alone recovers the record
containing the cleartext secret key and seed phrase. -/
theorem c3_secret_protection_amended (C : SubtleCrypto)
    (r : CreatePasskeyWalletResult) (iv1 iv2 : Bytes) (now : Nat)
    (sessionKey ivS pk sk seed : Bytes) (nowW : Nat) (st : BrowserStore)
    (hiv : ivS.length = 12) (hivv : ValidBytes ivS)
    (hjson : ValidBytes (Wallet.walletDataJson pk sk seed nowW)) :
    (passkeyRecord C r iv1 iv2 now).encryptedSecretKey
        = encryptWithWalletKey C r.keypair.secretKeyB58 r.walletKey iv2
      ∧ (passkeyRecord C r iv1 iv2 now).encryptedWalletKey
        = encryptWalletKey C r.walletKey r.credential.rawId r.salt iv1
      ∧ (Wallet.createWallet C sessionKey ivS pk sk seed nowW st).1.walletCookie
        = some (Encryption.encrypt C sessionKey ivS (Wallet.walletDataJson pk sk seed nowW))
      ∧ Encryption.decrypt C sessionKey
          (Encryption.encrypt C sessionKey ivS (Wallet.walletDataJson pk sk seed nowW))
        = some (Wallet.walletDataJson pk sk seed nowW) :=
  ⟨rfl, rfl, rfl, Encryption.decrypt_encrypt C sessionKey ivS _ hiv hivv hjson⟩

def sessK0 : Bytes := List.replicate 32 5
def pk0 : Bytes := strBytes ("PUB")
def skSecret0 : Bytes := strBytes ("SecretKeyBase58")
def seed0 : Bytes := strBytes ("abandon ability able")
def ivZ : Bytes := List.replicate 12 2

set_option maxRecDepth 20000 in
theorem c3_secret_protection_amended_inst :
    (passkeyRecord modelCrypto ⟨⟨cid0, cid0⟩, ⟨pk0, skSecret0⟩, wk0, salt0⟩ iv0 ivZ 7).encryptedSecretKey
        = encryptWithWalletKey modelCrypto skSecret0 wk0 ivZ
      ∧ (passkeyRecord modelCrypto ⟨⟨cid0, cid0⟩, ⟨pk0, skSecret0⟩, wk0, salt0⟩ iv0 ivZ 7).encryptedWalletKey
        = encryptWalletKey modelCrypto wk0 cid0 salt0 iv0
      ∧ (Wallet.createWallet modelCrypto sessK0 ivZ pk0 skSecret0 seed0 7 ⟨none, none⟩).1.walletCookie
        = some (Encryption.encrypt modelCrypto sessK0 ivZ (Wallet.walletDataJson pk0 skSecret0 seed0 7))
      ∧ Encryption.decrypt modelCrypto sessK0
          (Encryption.encrypt modelCrypto sessK0 ivZ (Wallet.walletDataJson pk0 skSecret0 seed0 7))
        = some (Wallet.walletDataJson pk0 skSecret0 seed0 7) :=
  c3_secret_protection_amended modelCrypto ⟨⟨cid0, cid0⟩, ⟨pk0, skSecret0⟩, wk0, salt0⟩
    iv0 ivZ 7 sessK0 ivZ pk0 skSecret0 seed0 7 ⟨none, none⟩ (by decide) (by decide)
    (by decide)

set_option maxRecDepth 20000 in
/-- Claim C3 counterexample: in the seed-phrase path (`createWallet`),
the persisted cookie copy of the Wallet Secret is NOT protected by the
Wallet Key: at this concrete input the stored cookie value is the
session-key encryption of the wallet JSON, the session key alone
decrypts it, and the decrypted record contains the base58 secret key and
the seed phrase as contiguous cleartext substrings.  No Wallet Key
appears anywhere in this path, refuting "every persisted copy is
protected by at least the Wallet Key". -/
theorem c3_cookie_counterexample :
    (Wallet.createWallet modelCrypto sessK0 ivZ pk0 skSecret0 seed0 7 ⟨none, none⟩).1.walletCookie
        = some (Encryption.encrypt modelCrypto sessK0 ivZ (Wallet.walletDataJson pk0 skSecret0 seed0 7))
      ∧ Encryption.decrypt modelCrypto sessK0
          (Encryption.encrypt modelCrypto sessK0 ivZ (Wallet.walletDataJson pk0 skSecret0 seed0 7))
        = some (Wallet.walletDataJson pk0 skSecret0 seed0 7)
      ∧ containsSeq skSecret0 (Wallet.walletDataJson pk0 skSecret0 seed0 7) = true
      ∧ containsSeq seed0 (Wallet.walletDataJson pk0 skSecret0 seed0 7) = true :=
  ⟨rfl,
   Encryption.decrypt_encrypt modelCrypto sessK0 ivZ _ (by decide) (by decide) (by decide),
   by decide, by decide⟩

/-- The platform `JSON.parse` never returning a value: used to exercise
the catch branch of `loadPasskeyWallet`. -/
def jpNone : Bytes → Option JsValue := fun _ => none

/-- Claim C8 (amended): for every stored value that is not valid JSON
(`JSON.parse` throws, modelled by the parser returning `none`),
`loadPasskeyWallet` returns null rather than throwing; but no
record-shape validation is performed, so only parse failures fall back
to null. -/
theorem c8_invalid_json_loads_null (jp : Bytes → Option JsValue) (st : BrowserStore)
    (s : Bytes) (h1 : st.passkeyWallet = some s) (h2 : jp s = none) :
    loadPasskeyWallet jp st = none := by
  unfold loadPasskeyWallet
  rw [h1]
  by_cases he : s.isEmpty
  · simp [he]
  · simp [he, h2]

theorem c8_invalid_json_loads_null_inst :
    loadPasskeyWallet jpNone ⟨some [102], none⟩ = none :=
  c8_invalid_json_loads_null jpNone ⟨some [102], none⟩ [102] rfl rfl

/-- `JSON.parse` at the stored string "42": real `JSON.parse` evaluates
it to the number 42 without throwing. -/
def jp42 : Bytes → Option JsValue :=
  fun s => if s = strBytes ("42") then some (JsValue.num 42) else none

/-- Claim C8 counterexample: the stored value "42" is not parseable as a
record, yet `loadPasskeyWallet` does not return null — `JSON.parse`
succeeds with the number 42 and the unchecked cast passes it through, so
the caller does not observe "no wallet found". -/
theorem c8_valid_json_not_record :
    loadPasskeyWallet jp42 ⟨some (strBytes ("42")), none⟩ = some (JsValue.num 42)
      ∧ isWalletRecord (JsValue.num 42) = false := by
  constructor
  · rfl
  · rfl

/-- Claim C10: `hasPasskeyWallet` and `loadPasskeyWallet` disagree on
malformed data — for any non-empty stored string that is not valid JSON,
`hasPasskeyWallet()` is true while `loadPasskeyWallet()` is null; and in
the other direction a non-null `loadPasskeyWallet()` always implies
`hasPasskeyWallet() = true`. -/
theorem c10_exists_load_disagree (jp : Bytes → Option JsValue) (s : Bytes)
    (h1 : s ≠ []) (h2 : jp s = none) :
    hasPasskeyWallet ⟨some s, none⟩ = true
      ∧ loadPasskeyWallet jp ⟨some s, none⟩ = none
      ∧ ∀ st : BrowserStore, loadPasskeyWallet jp st ≠ none →
          hasPasskeyWallet st = true := by
  refine ⟨?_, ?_, ?_⟩
  · cases s with
    | nil => exact absurd rfl h1
    | cons a t => rfl
  · cases s with
    | nil => exact absurd rfl h1
    | cons a t => simpa [loadPasskeyWallet] using h2
  · intro st h
    unfold loadPasskeyWallet at h
    unfold hasPasskeyWallet
    cases hst : st.passkeyWallet with
    | none => rw [hst] at h; simp at h
    | some d =>
        rw [hst] at h
        by_cases he : d.isEmpty
        · simp [he] at h
        · simp [he]

theorem c10_exists_load_disagree_inst :
    hasPasskeyWallet ⟨some [120], none⟩ = true
      ∧ loadPasskeyWallet jpNone ⟨some [120], none⟩ = none
      ∧ ∀ st : BrowserStore, loadPasskeyWallet jpNone st ≠ none →
          hasPasskeyWallet st = true :=
  c10_exists_load_disagree jpNone [120] (by decide) rfl
